import Mathlib

/-!
Verification of the ACES SSTS sigmoid-gradient tool (`aces_ddx_ssts_sigmoid.py`).

The core of the program is the piecewise curve evaluator `sigmoid_gradient`
together with the two sampling helpers `process` (pointwise evaluation over a
grid) and `process_integrate` (cumulative sum of the sampled values, as
`np.cumsum` computes it).  Real-valued Python arithmetic is embedded as exact
real arithmetic on `ℝ`; Python's `pow` is embedded as the real power
`Real.rpow` (written `x ^ e` below).  Python raises `ZeroDivisionError` when a
division has a zero denominator and when `pow` is applied to a zero base with a
negative exponent; both faults are modelled explicitly, so every function that
can fault returns `Except PyError ℝ` (or a list thereof).  `pow` applied to a
negative base with a non-integral exponent (which CPython answers in `ℂ`) is
outside the real-valued model; no statement below reaches that corner, and the
safety theorem shows the bases stay non-negative on the intended domain.
-/

namespace AcesSsts

noncomputable section
open Classical

/-- The Python helper class `Coordinate`: a record with fields `x` and `y`. -/
structure Coordinate where
  x : ℝ
  y : ℝ

/-- Source line 30: `lerp(a, b, t) = a + (b - a) * t`. -/
def lerp (a b t : ℝ) : ℝ := a + (b - a) * t

/-- Runtime fault the Python evaluator can raise: `ZeroDivisionError`
(division with zero denominator, or `pow(0.0, e)` with `e < 0`). -/
inductive PyError where
  | zeroDivision
  deriving DecidableEq

/-- Toe-segment formula, source line 60: `(pow(x / knee.x, tk_exp) + toe.y) * knee.y`. -/
def toeSegment (x : ℝ) (toe knee : Coordinate) (tk_exp : ℝ) : ℝ :=
  ((x / knee.x) ^ tk_exp + toe.y) * knee.y

/-- Linear-body formula, source line 64:
`lerp(knee.y, shoulder.y, (x - knee.x) / (shoulder.x - knee.x))`. -/
def linearSegment (x : ℝ) (knee shoulder : Coordinate) : ℝ :=
  lerp knee.y shoulder.y ((x - knee.x) / (shoulder.x - knee.x))

/-- Shoulder-segment formula, source lines 68-70:
`pow(((head.x - shoulder.x) - (x - shoulder.x)) / (head.x - shoulder.x), sh_exp)
  * (shoulder.y - head.y) + head.y`. -/
def shoulderSegment (x : ℝ) (shoulder head : Coordinate) (sh_exp : ℝ) : ℝ :=
  (((head.x - shoulder.x) - (x - shoulder.x)) / (head.x - shoulder.x)) ^ sh_exp
    * (shoulder.y - head.y) + head.y

/-- Translation of `sigmoid_gradient` (source lines 41-73).  The `if/elif/else`
chain is kept as in the source; before each branch's arithmetic the model
checks exactly the conditions under which CPython would raise
`ZeroDivisionError` there: a zero denominator in the branch's division, or a
zero base together with a negative exponent in the branch's `pow`. -/
def sigmoid_gradient (x : ℝ) (toe knee : Coordinate) (tk_exp : ℝ)
    (shoulder head : Coordinate) (sh_exp : ℝ) : Except PyError ℝ :=
  if toe.x ≤ x ∧ x ≤ knee.x then
    if knee.x = 0 ∨ (x / knee.x = 0 ∧ tk_exp < 0) then .error .zeroDivision
    else .ok (toeSegment x toe knee tk_exp)
  else if knee.x < x ∧ x ≤ shoulder.x then
    if shoulder.x - knee.x = 0 then .error .zeroDivision
    else .ok (linearSegment x knee shoulder)
  else if shoulder.x < x ∧ x ≤ head.x then
    if head.x - shoulder.x = 0 ∨
        (((head.x - shoulder.x) - (x - shoulder.x)) / (head.x - shoulder.x) = 0
          ∧ sh_exp < 0) then .error .zeroDivision
    else .ok (shoulderSegment x shoulder head sh_exp)
  else .ok head.y

/-- Left-to-right effectful map over a list, as the accumulation loop in
`process` performs it: the first fault raised while evaluating an element
aborts the loop and propagates. -/
def mapExcept (f : ℝ → Except PyError ℝ) : List ℝ → Except PyError (List ℝ)
  | [] => .ok []
  | x :: xs =>
    match f x with
    | .error e => .error e
    | .ok y =>
      match mapExcept f xs with
      | .error e => .error e
      | .ok ys => .ok (y :: ys)

/-- Translation of `process` (source lines 79-92): for each grid value the loop
builds `toe = (0, 0)`, `knee = (_knee_x, _knee)`, `shoulder = (_shoulder_x,
_shoulder)`, `head = (3.0, 0.05)` and evaluates `sigmoid_gradient`. -/
def process (x_data : List ℝ) (knee_y knee_x shoulder_y shoulder_x k_exp s_exp : ℝ) :
    Except PyError (List ℝ) :=
  mapExcept (fun x =>
    sigmoid_gradient x ⟨0, 0⟩ ⟨knee_x, knee_y⟩ k_exp ⟨shoulder_x, shoulder_y⟩
      ⟨3.0, 0.05⟩ s_exp) x_data

/-- Running cumulative sum with accumulator, the semantics of `np.cumsum`:
element `i` of the result is `acc` plus the sum of the first `i + 1` inputs. -/
def cumsumFrom (acc : ℝ) : List ℝ → List ℝ
  | [] => []
  | y :: ys => (acc + y) :: cumsumFrom (acc + y) ys

/-- `np.cumsum`: inclusive prefix sums of a list. -/
def cumsum (l : List ℝ) : List ℝ := cumsumFrom 0 l

/-- Translation of `process_integrate` (source lines 96-100): sample the
gradient with `process`, then take `np.cumsum` of the samples. -/
def process_integrate (x_data : List ℝ)
    (knee_y knee_x shoulder_y shoulder_x k_exp s_exp : ℝ) :
    Except PyError (List ℝ) :=
  (process x_data knee_y knee_x shoulder_y shoulder_x k_exp s_exp).map cumsum

/-- The spec's `sampleGradient` interface (§4.2/§6): pointwise evaluation of
the curve over a grid, with all four control points supplied by the caller. -/
def sampleGradient (grid : List ℝ) (toe knee : Coordinate) (tkExponent : ℝ)
    (shoulder head : Coordinate) (shExponent : ℝ) : Except PyError (List ℝ) :=
  mapExcept (fun x =>
    sigmoid_gradient x toe knee tkExponent shoulder head shExponent) grid

/-- The spec's `sampleIntegral` interface (§4.2/§6): the inclusive prefix-sum
sequence of `sampleGradient` on the same grid and parameters. -/
def sampleIntegral (grid : List ℝ) (toe knee : Coordinate) (tkExponent : ℝ)
    (shoulder head : Coordinate) (shExponent : ℝ) : Except PyError (List ℝ) :=
  (sampleGradient grid toe knee tkExponent shoulder head shExponent).map cumsum

/-- The four-branch piecewise reference definition exactly as the spec's §4.1
table writes it (row by row); outside the covered domain (`x < toe.x`) the
table defines no value, and this function returns `0` there. -/
def specEvaluate (x : ℝ) (toe knee : Coordinate) (tkExponent : ℝ)
    (shoulder head : Coordinate) (shExponent : ℝ) : ℝ :=
  if toe.x ≤ x ∧ x ≤ knee.x then
    ((x / knee.x) ^ tkExponent + toe.y) * knee.y
  else if knee.x < x ∧ x ≤ shoulder.x then
    knee.y + (shoulder.y - knee.y) * ((x - knee.x) / (shoulder.x - knee.x))
  else if shoulder.x < x ∧ x ≤ head.x then
    head.y + (shoulder.y - head.y) *
      (((head.x - shoulder.x) - (x - shoulder.x)) / (head.x - shoulder.x)) ^ shExponent
  else if head.x < x then head.y
  else 0

/-- Names for the four segments of the spec's piecewise table. -/
inductive Seg where
  | toe
  | linearBody
  | shoulderEase
  | tail
  deriving DecidableEq

/-- Membership of an input `x` in each segment's domain, as the spec's §4.1
table delimits them. -/
def onSeg (x : ℝ) (toe knee shoulder head : Coordinate) : Seg → Prop
  | Seg.toe => toe.x ≤ x ∧ x ≤ knee.x
  | Seg.linearBody => knee.x < x ∧ x ≤ shoulder.x
  | Seg.shoulderEase => shoulder.x < x ∧ x ≤ head.x
  | Seg.tail => head.x < x

/-! ### Helper lemmas about the effectful map and the cumulative sum -/

theorem mapExcept_length (f : ℝ → Except PyError ℝ) (l : List ℝ) :
    ∀ out, mapExcept f l = Except.ok out → out.length = l.length := by
  induction l with
  | nil =>
    intro out h
    simp only [mapExcept, Except.ok.injEq] at h
    simp [← h]
  | cons y ys ih =>
    intro out h
    simp only [mapExcept] at h
    cases hf : f y with
    | error e => rw [hf] at h; simp at h
    | ok v =>
      rw [hf] at h
      cases hm : mapExcept f ys with
      | error e => rw [hm] at h; simp at h
      | ok vs =>
        rw [hm] at h
        simp only [Except.ok.injEq] at h
        simp [← h, ih vs hm]

theorem mapExcept_get (f : ℝ → Except PyError ℝ) (l : List ℝ) :
    ∀ out, mapExcept f l = Except.ok out →
      ∀ i (hi : i < l.length) (hi' : i < out.length),
        f (l.get ⟨i, hi⟩) = Except.ok (out.get ⟨i, hi'⟩) := by
  induction l with
  | nil => intro out _ i hi; exact absurd hi (Nat.not_lt_zero i)
  | cons y ys ih =>
    intro out h i hi hi'
    simp only [mapExcept] at h
    cases hf : f y with
    | error e => rw [hf] at h; simp at h
    | ok v =>
      rw [hf] at h
      cases hm : mapExcept f ys with
      | error e => rw [hm] at h; simp at h
      | ok vs =>
        rw [hm] at h
        simp only [Except.ok.injEq] at h
        subst h
        cases i with
        | zero => simpa using hf
        | succ n =>
          exact ih vs hm n (Nat.lt_of_succ_lt_succ hi) (Nat.lt_of_succ_lt_succ hi')

theorem mapExcept_ok_of_forall (f : ℝ → Except PyError ℝ) (l : List ℝ)
    (h : ∀ x ∈ l, ∃ v, f x = Except.ok v) :
    ∃ out, mapExcept f l = Except.ok out := by
  induction l with
  | nil => exact ⟨[], rfl⟩
  | cons y ys ih =>
    obtain ⟨v, hv⟩ := h y (List.mem_cons_self y ys)
    obtain ⟨vs, hvs⟩ := ih (fun x hx => h x (List.mem_cons_of_mem y hx))
    exact ⟨v :: vs, by simp [mapExcept, hv, hvs]⟩

theorem cumsumFrom_length (a : ℝ) (l : List ℝ) :
    (cumsumFrom a l).length = l.length := by
  induction l generalizing a with
  | nil => rfl
  | cons y ys ih => simp [cumsumFrom, ih]

theorem cumsum_length (l : List ℝ) : (cumsum l).length = l.length :=
  cumsumFrom_length 0 l

theorem cumsumFrom_get (l : List ℝ) :
    ∀ (a : ℝ) (i : ℕ) (hi : i < l.length) (hi' : i < (cumsumFrom a l).length),
      (cumsumFrom a l).get ⟨i, hi'⟩ = a + (l.take (i + 1)).sum := by
  induction l with
  | nil => intro a i hi; exact absurd hi (Nat.not_lt_zero i)
  | cons y ys ih =>
    intro a i hi hi'
    cases i with
    | zero => simp [cumsumFrom]
    | succ n =>
      have h2 : n < (cumsumFrom (a + y) ys).length := by
        rw [cumsumFrom_length]
        exact Nat.lt_of_succ_lt_succ hi
      simp only [cumsumFrom, List.get_cons_succ]
      rw [ih (a + y) n (Nat.lt_of_succ_lt_succ hi) h2]
      simp [List.take_succ_cons, add_assoc]

theorem cumsum_get (l : List ℝ) (i : ℕ) (hi : i < l.length)
    (hi' : i < (cumsum l).length) :
    (cumsum l).get ⟨i, hi'⟩ = (l.take (i + 1)).sum := by
  simp only [cumsum] at hi' ⊢
  rw [cumsumFrom_get l 0 i hi hi', zero_add]

/-! ### Claim C1: continuity at the interior segment boundaries -/

/-- Claim C1 fails as stated: this parameter set satisfies the ordering
invariant `0 = toe.x < knee.x < shoulder.x < head.x` with positive exponents,
yet at the knee boundary `x = knee.x = 1` the lower (toe) segment formula —
the one `sigmoid_gradient` actually returns there — gives `2`, while the upper
(linear-body) segment formula gives `1`. -/
theorem knee_boundary_jump_of_nonzero_toe_y :
    sigmoid_gradient 1 ⟨0, 1⟩ ⟨1, 1⟩ 2 ⟨2, 1⟩ ⟨3, 0⟩ 2
      = Except.ok (toeSegment 1 ⟨0, 1⟩ ⟨1, 1⟩ 2) ∧
    toeSegment 1 ⟨0, 1⟩ ⟨1, 1⟩ 2 = 2 ∧
    linearSegment 1 ⟨1, 1⟩ ⟨2, 1⟩ = 1 ∧
    toeSegment 1 ⟨0, 1⟩ ⟨1, 1⟩ 2 ≠ linearSegment 1 ⟨1, 1⟩ ⟨2, 1⟩ := by
  have h2 : toeSegment 1 ⟨0, 1⟩ ⟨1, 1⟩ 2 = 2 := by
    norm_num [toeSegment, Real.one_rpow]
  have h1 : linearSegment 1 ⟨1, 1⟩ ⟨2, 1⟩ = 1 := by
    norm_num [linearSegment, lerp]
  refine ⟨?_, h2, h1, ?_⟩
  · norm_num [sigmoid_gradient]
  · rw [h2, h1]; norm_num

/-- Claim C1 amended: under the ordering invariant and the extra hypothesis
`toe.y = 0` (the toe is fixed at the origin in all current usage), the segment
formulas agree at both interior boundaries: toe and linear-body formulas at
`x = knee.x`, linear-body and shoulder formulas at `x = shoulder.x`. -/
theorem boundary_continuity_of_toe_y_eq_zero (toe knee shoulder head : Coordinate)
    (tk_exp sh_exp : ℝ) (h1 : 0 < knee.x) (h2 : knee.x < shoulder.x)
    (h3 : shoulder.x < head.x) (hty : toe.y = 0) :
    toeSegment knee.x toe knee tk_exp = linearSegment knee.x knee shoulder ∧
    linearSegment shoulder.x knee shoulder
      = shoulderSegment shoulder.x shoulder head sh_exp := by
  have d0 : knee.x ≠ 0 := ne_of_gt h1
  have d1 : shoulder.x - knee.x ≠ 0 := ne_of_gt (sub_pos.mpr h2)
  have d2 : head.x - shoulder.x ≠ 0 := ne_of_gt (sub_pos.mpr h3)
  constructor
  · rw [toeSegment, linearSegment, lerp, hty, div_self d0, Real.one_rpow,
      sub_self knee.x, zero_div]
    ring
  · rw [linearSegment, lerp, shoulderSegment, div_self d1, sub_self shoulder.x,
      sub_zero, div_self d2, Real.one_rpow]
    ring

/-- Witness for the amended claim C1 at a concrete parameter set. -/
theorem boundary_continuity_example :
    toeSegment 1 ⟨0, 0⟩ ⟨1, 1/2⟩ 1 = linearSegment 1 ⟨1, 1/2⟩ ⟨2, 1/2⟩ ∧
    linearSegment 2 ⟨1, 1/2⟩ ⟨2, 1/2⟩ = shoulderSegment 2 ⟨2, 1/2⟩ ⟨3, 1/20⟩ 1 :=
  boundary_continuity_of_toe_y_eq_zero ⟨0, 0⟩ ⟨1, 1/2⟩ ⟨2, 1/2⟩ ⟨3, 1/20⟩ 1 1
    (by norm_num) (by norm_num) (by norm_num) rfl

/-! ### Claim C2: behaviour on a degenerate toe-knee segment -/

/-- Claim C2 fails as stated: with `knee.x = toe.x = 0` (a zero toe-knee
denominator) nothing is detected eagerly and no typed failure is raised —
both the evaluator and the sampler simply return ordinary values for an input
in the linear-body range. -/
theorem degenerate_knee_returns_value_not_failure :
    sigmoid_gradient 1 ⟨0, 0⟩ ⟨0, 1/2⟩ 2 ⟨2, 1/2⟩ ⟨3, 1/20⟩ 2 = Except.ok (1/2) ∧
    process [1] (1/2) 0 (1/2) 2 2 2 = Except.ok [1/2] := by
  constructor
  · norm_num [sigmoid_gradient, linearSegment, lerp]
  · norm_num [process, mapExcept, sigmoid_gradient, linearSegment, lerp]

/-- Claim C2 amended: the code performs no eager validation and has no typed
`DegenerateSegment` failure.  With `knee.x = toe.x = 0` (and the remaining
parameters ordered, exponents positive), the evaluator faults — with CPython's
untyped `ZeroDivisionError`, raised mid-computation by `x / knee.x` — exactly
when `x` lies in the collapsed toe segment, i.e. `x = 0`; every other input
silently returns a normal value. -/
theorem degenerate_knee_zero_division_iff (x : ℝ) (toe knee shoulder head : Coordinate)
    (tk_exp sh_exp : ℝ) (ht : toe.x = 0) (hk : knee.x = 0)
    (hs : 0 < shoulder.x) (hh : shoulder.x < head.x)
    (htk : 0 < tk_exp) (hsh : 0 < sh_exp) :
    sigmoid_gradient x toe knee tk_exp shoulder head sh_exp
      = Except.error PyError.zeroDivision ↔ x = 0 := by
  constructor
  · intro h
    unfold sigmoid_gradient at h
    split_ifs at h with hc1 hg1 hc2 hg2 hc3 hg3
    · exact le_antisymm (hk ▸ hc1.2) (ht ▸ hc1.1)
    · exfalso
      rw [hk, sub_zero] at hg2
      exact absurd hg2 (ne_of_gt hs)
    · exfalso
      rcases hg3 with hg3 | hg3
      · exact absurd hg3 (ne_of_gt (sub_pos.mpr hh))
      · linarith [hg3.2]
  · intro hx
    subst hx
    simp [sigmoid_gradient, ht, hk]

/-- Witness for the amended claim C2: at `x = 0` the degenerate parameter set
produces the division fault. -/
theorem degenerate_knee_zero_division_example :
    sigmoid_gradient 0 ⟨0, 0⟩ ⟨0, 1/2⟩ 1 ⟨2, 1/2⟩ ⟨3, 1/20⟩ 1
      = Except.error PyError.zeroDivision :=
  (degenerate_knee_zero_division_iff 0 ⟨0, 0⟩ ⟨0, 1/2⟩ ⟨2, 1/2⟩ ⟨3, 1/20⟩ 1 1 rfl rfl
    (by norm_num) (by norm_num) (by norm_num) (by norm_num)).mpr rfl

/-! ### Claim C3: inputs below the toe fall through to the flat tail -/

/-- Claim C3: under the ordering invariant, every `x` strictly below `toe.x`
fails all three bounded range checks, so `sigmoid_gradient` falls through to
the final `else` and returns the flat-tail value `head.y`. -/
theorem below_toe_returns_head_y (x : ℝ) (toe knee shoulder head : Coordinate)
    (tk_exp sh_exp : ℝ) (ht : toe.x = 0) (h1 : toe.x < knee.x)
    (h2 : knee.x < shoulder.x) (h3 : shoulder.x < head.x) (hx : x < toe.x) :
    sigmoid_gradient x toe knee tk_exp shoulder head sh_exp = Except.ok head.y := by
  have nc1 : ¬(toe.x ≤ x ∧ x ≤ knee.x) := by rintro ⟨a, _⟩; linarith
  have nc2 : ¬(knee.x < x ∧ x ≤ shoulder.x) := by rintro ⟨a, _⟩; linarith
  have nc3 : ¬(shoulder.x < x ∧ x ≤ head.x) := by rintro ⟨a, _⟩; linarith
  unfold sigmoid_gradient
  rw [if_neg nc1, if_neg nc2, if_neg nc3]

/-- Witness for claim C3 at a concrete input below the toe. -/
theorem below_toe_example :
    sigmoid_gradient (-1) ⟨0, 0⟩ ⟨1, 1/2⟩ 1 ⟨2, 1/2⟩ ⟨3, 1/20⟩ 1
      = Except.ok (1/20) :=
  below_toe_returns_head_y (-1) ⟨0, 0⟩ ⟨1, 1/2⟩ ⟨2, 1/2⟩ ⟨3, 1/20⟩ 1 1 rfl
    (by norm_num) (by norm_num) (by norm_num) (by norm_num)

/-! ### Claim C7: inputs above the head give exactly the flat-tail value -/

/-- Claim C7: under the ordering invariant, every `x` strictly above `head.x`
makes `sigmoid_gradient` return exactly `head.y`. -/
theorem above_head_returns_head_y (x : ℝ) (toe knee shoulder head : Coordinate)
    (tk_exp sh_exp : ℝ) (ht : toe.x = 0) (h1 : toe.x < knee.x)
    (h2 : knee.x < shoulder.x) (h3 : shoulder.x < head.x) (hx : head.x < x) :
    sigmoid_gradient x toe knee tk_exp shoulder head sh_exp = Except.ok head.y := by
  have nc1 : ¬(toe.x ≤ x ∧ x ≤ knee.x) := by rintro ⟨_, b⟩; linarith
  have nc2 : ¬(knee.x < x ∧ x ≤ shoulder.x) := by rintro ⟨_, b⟩; linarith
  have nc3 : ¬(shoulder.x < x ∧ x ≤ head.x) := by rintro ⟨_, b⟩; linarith
  unfold sigmoid_gradient
  rw [if_neg nc1, if_neg nc2, if_neg nc3]

/-- Witness for claim C7: the spec's own scenario, `evaluate` at `x = 4` with
the head at `(3, 0.05)` returns `0.05 = 1/20`. -/
theorem above_head_example :
    sigmoid_gradient 4 ⟨0, 0⟩ ⟨1, 1/2⟩ 1 ⟨2, 1/2⟩ ⟨3, 1/20⟩ 1
      = Except.ok (1/20) :=
  above_head_returns_head_y 4 ⟨0, 0⟩ ⟨1, 1/2⟩ ⟨2, 1/2⟩ ⟨3, 1/20⟩ 1 1 rfl
    (by norm_num) (by norm_num) (by norm_num) (by norm_num)

/-! ### Segment partition helpers and totality of the evaluator -/

theorem onSeg_exists (x : ℝ) (toe knee shoulder head : Coordinate) (hx : toe.x ≤ x) :
    ∃ s, onSeg x toe knee shoulder head s := by
  rcases le_or_lt x knee.x with h | h
  · exact ⟨Seg.toe, hx, h⟩
  rcases le_or_lt x shoulder.x with h' | h'
  · exact ⟨Seg.linearBody, h, h'⟩
  rcases le_or_lt x head.x with h'' | h''
  · exact ⟨Seg.shoulderEase, h', h''⟩
  · exact ⟨Seg.tail, h''⟩

theorem onSeg_unique (x : ℝ) (toe knee shoulder head : Coordinate)
    (h1 : toe.x < knee.x) (h2 : knee.x < shoulder.x) (h3 : shoulder.x < head.x)
    (s s' : Seg) (hs : onSeg x toe knee shoulder head s)
    (hs' : onSeg x toe knee shoulder head s') : s = s' := by
  cases s <;> cases s' <;>
    simp only [onSeg] at hs hs' <;>
    first
      | rfl
      | (exfalso; linarith [hs.1, hs.2, hs'.1, hs'.2])
      | (exfalso; linarith [hs.1, hs.2, hs'])
      | (exfalso; linarith [hs, hs'.1, hs'.2])

theorem sigmoid_gradient_ok (x : ℝ) (toe knee shoulder head : Coordinate)
    (tk_exp sh_exp : ℝ) (h1 : 0 < knee.x) (h2 : knee.x < shoulder.x)
    (h3 : shoulder.x < head.x) (htk : 0 < tk_exp) (hsh : 0 < sh_exp) :
    ∃ v, sigmoid_gradient x toe knee tk_exp shoulder head sh_exp = Except.ok v := by
  unfold sigmoid_gradient
  split_ifs with hc1 hg1 hc2 hg2 hc3 hg3
  · exfalso
    rcases hg1 with hg1 | hg1
    · exact absurd hg1 (ne_of_gt h1)
    · linarith [hg1.2]
  · exact ⟨_, rfl⟩
  · exact absurd hg2 (ne_of_gt (sub_pos.mpr h2))
  · exact ⟨_, rfl⟩
  · exfalso
    rcases hg3 with hg3 | hg3
    · exact absurd hg3 (ne_of_gt (sub_pos.mpr h3))
    · linarith [hg3.2]
  · exact ⟨_, rfl⟩
  · exact ⟨_, rfl⟩

/-! ### Claim C4: the evaluator computes the spec's piecewise table -/

/-- Claim C4: under the ordering invariant (with the spec's positive
exponents), on the covered domain `toe.x ≤ x` the evaluator returns exactly
the spec's four-branch piecewise reference value, and `x` lies in exactly one
of the four segment domains. -/
theorem evaluate_matches_spec_piecewise (x : ℝ) (toe knee shoulder head : Coordinate)
    (tk_exp sh_exp : ℝ) (ht : toe.x = 0) (h1 : toe.x < knee.x)
    (h2 : knee.x < shoulder.x) (h3 : shoulder.x < head.x)
    (htk : 0 < tk_exp) (hsh : 0 < sh_exp) (hx : toe.x ≤ x) :
    sigmoid_gradient x toe knee tk_exp shoulder head sh_exp
      = Except.ok (specEvaluate x toe knee tk_exp shoulder head sh_exp) ∧
    ∃! s : Seg, onSeg x toe knee shoulder head s := by
  constructor
  · have hk0 : (0:ℝ) < knee.x := ht ▸ h1
    unfold sigmoid_gradient specEvaluate
    split_ifs with hc1 hg1 hc2 hg2 hc3 hg3 hc4
    · exfalso
      rcases hg1 with hg1 | hg1
      · exact absurd hg1 (ne_of_gt hk0)
      · linarith [hg1.2]
    · rfl
    · exact absurd hg2 (ne_of_gt (sub_pos.mpr h2))
    · rfl
    · exfalso
      rcases hg3 with hg3 | hg3
      · exact absurd hg3 (ne_of_gt (sub_pos.mpr h3))
      · linarith [hg3.2]
    · simp only [shoulderSegment, Except.ok.injEq]
      ring
    · rfl
    · exfalso
      push_neg at hc1 hc2 hc3
      have hxk := hc1 hx
      have hxs := hc2 hxk
      exact hc4 (hc3 hxs)
  · obtain ⟨s, hs⟩ := onSeg_exists x toe knee shoulder head hx
    exact ⟨s, hs, fun s' hs' =>
      onSeg_unique x toe knee shoulder head h1 h2 h3 s' s hs' hs⟩

/-- Witness for claim C4 at the interior point `x = 2` of a concrete
parameter set. -/
theorem evaluate_matches_spec_example :
    sigmoid_gradient 2 ⟨0, 0⟩ ⟨1, 1/2⟩ 1 ⟨2, 1/2⟩ ⟨3, 1/20⟩ 1
      = Except.ok (specEvaluate 2 ⟨0, 0⟩ ⟨1, 1/2⟩ 1 ⟨2, 1/2⟩ ⟨3, 1/20⟩ 1) ∧
    ∃! s : Seg, onSeg 2 ⟨0, 0⟩ ⟨1, 1/2⟩ ⟨2, 1/2⟩ ⟨3, 1/20⟩ s :=
  evaluate_matches_spec_piecewise 2 ⟨0, 0⟩ ⟨1, 1/2⟩ ⟨2, 1/2⟩ ⟨3, 1/20⟩ 1 1 rfl
    (by norm_num) (by norm_num) (by norm_num) (by norm_num) (by norm_num)
    (by norm_num)

/-! ### Claim C10: safety of the guarded branches -/

/-- Claim C10: under the ordering invariant (with the spec's positive
exponents) and `toe.x ≤ x`, the evaluator never faults: every denominator it
can divide by is nonzero, the toe-segment power base is non-negative, and the
normalized shoulder fraction lies in `[0, 1)` on its branch. -/
theorem evaluate_safe_under_invariant (x : ℝ) (toe knee shoulder head : Coordinate)
    (tk_exp sh_exp : ℝ) (ht : toe.x = 0) (h1 : toe.x < knee.x)
    (h2 : knee.x < shoulder.x) (h3 : shoulder.x < head.x)
    (htk : 0 < tk_exp) (hsh : 0 < sh_exp) (hx : toe.x ≤ x) :
    (sigmoid_gradient x toe knee tk_exp shoulder head sh_exp).isOk = true ∧
    knee.x ≠ 0 ∧ shoulder.x - knee.x ≠ 0 ∧ head.x - shoulder.x ≠ 0 ∧
    (toe.x ≤ x ∧ x ≤ knee.x → 0 ≤ x / knee.x) ∧
    (shoulder.x < x ∧ x ≤ head.x →
      0 ≤ ((head.x - shoulder.x) - (x - shoulder.x)) / (head.x - shoulder.x) ∧
      ((head.x - shoulder.x) - (x - shoulder.x)) / (head.x - shoulder.x) < 1) := by
  have hk0 : (0:ℝ) < knee.x := ht ▸ h1
  refine ⟨?_, ne_of_gt hk0, ne_of_gt (sub_pos.mpr h2), ne_of_gt (sub_pos.mpr h3),
    ?_, ?_⟩
  · obtain ⟨v, hv⟩ :=
      sigmoid_gradient_ok x toe knee shoulder head tk_exp sh_exp hk0 h2 h3 htk hsh
    rw [hv]
    rfl
  · rintro ⟨ha, _⟩
    exact div_nonneg (by linarith) (le_of_lt hk0)
  · rintro ⟨ha, hb⟩
    have hnum : (head.x - shoulder.x) - (x - shoulder.x) = head.x - x := by ring
    rw [hnum]
    constructor
    · exact div_nonneg (by linarith) (by linarith)
    · rw [div_lt_one (by linarith)]
      linarith

/-- Witness for claim C10 at the interior point `x = 3/2` of a concrete
parameter set. -/
theorem evaluate_safe_example :
    (sigmoid_gradient (3/2) ⟨0, 0⟩ ⟨1, 1/2⟩ 1 ⟨2, 1/2⟩ ⟨3, 1/20⟩ 1).isOk = true ∧
    (1:ℝ) ≠ 0 ∧ (2:ℝ) - 1 ≠ 0 ∧ (3:ℝ) - 2 ≠ 0 ∧
    ((0:ℝ) ≤ 3/2 ∧ (3/2:ℝ) ≤ 1 → 0 ≤ (3/2:ℝ) / 1) ∧
    ((2:ℝ) < 3/2 ∧ (3/2:ℝ) ≤ 3 →
      0 ≤ (((3:ℝ) - 2) - (3/2 - 2)) / (3 - 2) ∧
      (((3:ℝ) - 2) - (3/2 - 2)) / (3 - 2) < 1) :=
  evaluate_safe_under_invariant (3/2) ⟨0, 0⟩ ⟨1, 1/2⟩ ⟨2, 1/2⟩ ⟨3, 1/20⟩ 1 1 rfl
    (by norm_num) (by norm_num) (by norm_num) (by norm_num) (by norm_num)
    (by norm_num)

/-! ### Claim C6: pointwise sampling -/

/-- Claim C6 fails as stated: for the grid `[0]` and the parameter set with
`knee.x = 0`, the sampler does not return a length-1 sequence — the pointwise
evaluation at `x = 0` divides by `knee.x = 0` and the fault propagates out of
the loop. -/
theorem sample_gradient_faults_on_degenerate_knee :
    process [0] (1/2) 0 (1/2) 2 2 2 = Except.error PyError.zeroDivision := by
  norm_num [process, mapExcept, sigmoid_gradient]

/-- Claim C6 amended: for every grid and every parameter set satisfying the
sampler's instance of the ordering invariant (`0 < knee.x < shoulder.x < 3.0`,
the spec's positive exponents), `process` returns a sequence of the same
length as the grid whose `i`-th element is the evaluator applied to the `i`-th
grid value; in particular a zero-length grid yields a zero-length result. -/
theorem sample_gradient_pointwise (grid : List ℝ)
    (knee_y knee_x shoulder_y shoulder_x k_exp s_exp : ℝ)
    (h1 : 0 < knee_x) (h2 : knee_x < shoulder_x) (h3 : shoulder_x < 3.0)
    (hke : 0 < k_exp) (hse : 0 < s_exp) :
    ∃ g, process grid knee_y knee_x shoulder_y shoulder_x k_exp s_exp = Except.ok g ∧
      g.length = grid.length ∧
      ∀ i (hi : i < grid.length) (hi' : i < g.length),
        Except.ok (g.get ⟨i, hi'⟩)
          = sigmoid_gradient (grid.get ⟨i, hi⟩) ⟨0, 0⟩ ⟨knee_x, knee_y⟩ k_exp
              ⟨shoulder_x, shoulder_y⟩ ⟨3.0, 0.05⟩ s_exp := by
  have hall : ∀ x ∈ grid, ∃ v,
      sigmoid_gradient x ⟨0, 0⟩ ⟨knee_x, knee_y⟩ k_exp ⟨shoulder_x, shoulder_y⟩
        ⟨3.0, 0.05⟩ s_exp = Except.ok v := fun x _ =>
    sigmoid_gradient_ok x ⟨0, 0⟩ ⟨knee_x, knee_y⟩ ⟨shoulder_x, shoulder_y⟩
      ⟨3.0, 0.05⟩ k_exp s_exp h1 h2 h3 hke hse
  obtain ⟨g, hg⟩ := mapExcept_ok_of_forall _ grid hall
  exact ⟨g, hg, mapExcept_length _ grid g hg,
    fun i hi hi' => (mapExcept_get _ grid g hg i hi hi').symm⟩

/-- Witness for the amended claim C6 on the grid `[0, 1]`. -/
theorem sample_gradient_pointwise_example :
    ∃ g, process [0, 1] (1/2) 1 (1/2) 2 1 1 = Except.ok g ∧
      g.length = ([0, 1] : List ℝ).length ∧
      ∀ i (hi : i < ([0, 1] : List ℝ).length) (hi' : i < g.length),
        Except.ok (g.get ⟨i, hi'⟩)
          = sigmoid_gradient (([0, 1] : List ℝ).get ⟨i, hi⟩) ⟨0, 0⟩ ⟨1, 1/2⟩ 1
              ⟨2, 1/2⟩ ⟨3.0, 0.05⟩ 1 :=
  sample_gradient_pointwise [0, 1] (1/2) 1 (1/2) 2 1 1 (by norm_num)
    (by norm_num) (by norm_num) (by norm_num) (by norm_num)

/-! ### Claim C5: the integral sampler is the inclusive prefix sum -/

/-- Claim C5: whenever the gradient sampler returns the sequence `g`, the
integral sampler returns the sequence of the same length whose element `i` is
the sum of the gradient elements `0 .. i` inclusive (no normalization by the
grid step). -/
theorem integrate_is_prefix_sum (grid : List ℝ)
    (knee_y knee_x shoulder_y shoulder_x k_exp s_exp : ℝ) (g : List ℝ)
    (h : process grid knee_y knee_x shoulder_y shoulder_x k_exp s_exp = Except.ok g) :
    ∃ ig, process_integrate grid knee_y knee_x shoulder_y shoulder_x k_exp s_exp
        = Except.ok ig ∧
      ig.length = g.length ∧
      ∀ i (hi : i < g.length) (hi' : i < ig.length),
        ig.get ⟨i, hi'⟩ = (g.take (i + 1)).sum := by
  refine ⟨cumsum g, ?_, cumsum_length g, ?_⟩
  · unfold process_integrate
    rw [h]
    rfl
  · intro i hi hi'
    exact cumsum_get g i hi hi'

/-- Witness for claim C5: the spec's three-point scenario; the gradient on the
grid `[0, 1, 2]` is `[0, 1/2, 1/2]` and the integral is its inclusive prefix
sum. -/
theorem integrate_is_prefix_sum_example :
    ∃ ig, process_integrate [0, 1, 2] (1/2) 1 (1/2) 2 1 1 = Except.ok ig ∧
      ig.length = ([0, 1/2, 1/2] : List ℝ).length ∧
      ∀ i (hi : i < ([0, 1/2, 1/2] : List ℝ).length) (hi' : i < ig.length),
        ig.get ⟨i, hi'⟩ = (([0, 1/2, 1/2] : List ℝ).take (i + 1)).sum :=
  integrate_is_prefix_sum [0, 1, 2] (1/2) 1 (1/2) 2 1 1 [0, 1/2, 1/2] (by
    norm_num [process, mapExcept, sigmoid_gradient, toeSegment, linearSegment, lerp])

/-! ### Claim C8: monotonicity of the integral for non-negative gradients -/

/-- Claim C8: whenever the gradient sampler returns a sequence of non-negative
values, the integral sampler's sequence is non-decreasing. -/
theorem integral_monotone_of_nonneg_gradient (grid : List ℝ)
    (knee_y knee_x shoulder_y shoulder_x k_exp s_exp : ℝ) (g : List ℝ)
    (h : process grid knee_y knee_x shoulder_y shoulder_x k_exp s_exp = Except.ok g)
    (hpos : ∀ y ∈ g, 0 ≤ y) :
    ∃ ig, process_integrate grid knee_y knee_x shoulder_y shoulder_x k_exp s_exp
        = Except.ok ig ∧
      ∀ i (hi : i + 1 < ig.length),
        ig.get ⟨i, Nat.lt_of_succ_lt hi⟩ ≤ ig.get ⟨i + 1, hi⟩ := by
  refine ⟨cumsum g, ?_, ?_⟩
  · unfold process_integrate
    rw [h]
    rfl
  · intro i hi
    have hlen : (cumsum g).length = g.length := cumsum_length g
    have hi1 : i + 1 < g.length := hlen ▸ hi
    have hi0 : i < g.length := Nat.lt_of_succ_lt hi1
    rw [cumsum_get g i hi0 (Nat.lt_of_succ_lt hi), cumsum_get g (i + 1) hi1 hi,
      List.sum_take_succ g (i + 1) hi1]
    have hmem : g[i + 1] ∈ g := List.getElem_mem hi1
    linarith [hpos _ hmem]

/-- Witness for claim C8 on the grid `[0, 1]` with gradient `[0, 1/2]`. -/
theorem integral_monotone_example :
    ∃ ig, process_integrate [0, 1] (1/2) 1 (1/2) 2 1 1 = Except.ok ig ∧
      ∀ i (hi : i + 1 < ig.length),
        ig.get ⟨i, Nat.lt_of_succ_lt hi⟩ ≤ ig.get ⟨i + 1, hi⟩ :=
  integral_monotone_of_nonneg_gradient [0, 1] (1/2) 1 (1/2) 2 1 1 [0, 1/2]
    (by norm_num [process, mapExcept, sigmoid_gradient, toeSegment, linearSegment, lerp])
    (by intro y hy; simp at hy; rcases hy with rfl | rfl <;> norm_num)

/-! ### Claim C9: the samplers pin the toe and head control points -/

/-- Claim C9: `process` and `process_integrate` are exactly the spec's
samplers applied with the toe pinned at `(0, 0)` and the head pinned at
`(3.0, 0.05)`; neither point can be varied through the sampler interface, so
the sampled output depends only on the grid, the knee, the shoulder and the
two exponents.  The last two conjuncts pin the constants as exact reals. -/
theorem samplers_fix_toe_and_head (grid : List ℝ)
    (knee_y knee_x shoulder_y shoulder_x k_exp s_exp : ℝ) :
    process grid knee_y knee_x shoulder_y shoulder_x k_exp s_exp
      = sampleGradient grid ⟨0, 0⟩ ⟨knee_x, knee_y⟩ k_exp
          ⟨shoulder_x, shoulder_y⟩ ⟨3.0, 0.05⟩ s_exp ∧
    process_integrate grid knee_y knee_x shoulder_y shoulder_x k_exp s_exp
      = sampleIntegral grid ⟨0, 0⟩ ⟨knee_x, knee_y⟩ k_exp
          ⟨shoulder_x, shoulder_y⟩ ⟨3.0, 0.05⟩ s_exp ∧
    (0.05 : ℝ) = 1/20 ∧ (3.0 : ℝ) = 3 :=
  ⟨rfl, rfl, by norm_num, by norm_num⟩

end

end AcesSsts
